import Mathlib

/-!
# ShipSight barcode/recording coordinator — verification development

Shallow embedding of the barcode-uniqueness reservation and recording-lifecycle
coordinator of the ShipSight web app (`src/pages/Index.tsx`,
`src/components/RecordingControls.tsx`, `src/components/BarcodeInput.tsx`).

Strings are modelled with Lean `String` / `List Char`; the browser file system
is modelled by the content of `session.log` of the currently selected folder
(`fileLog`) plus a flag saying whether a directory handle is available.
Asynchronous completion of the clip write is modelled explicitly: `onstop`
*initiates* the save (pushing it onto `pendingSaves`) and a separate
`completePendingSave` step models the `saveToFolder().then(...)` callback
firing once the write finishes.
-/

namespace ShipSight

/-- JS `\s` (whitespace class), restricted to the ASCII whitespace characters
that can actually occur in this application's strings. -/
def isJsSpace (c : Char) : Bool :=
  c = ' ' || c = '\t' || c = '\n' || c = '\r' || c = '\x0b' || c = '\x0c'

/-- Drop JS whitespace from both ends of a character list (JS `String.prototype.trim`). -/
def trimList (cs : List Char) : List Char :=
  ((cs.dropWhile isJsSpace).reverse.dropWhile isJsSpace).reverse

/-- JS `code.trim()`. -/
def jsTrim (s : String) : String := ⟨trimList s.data⟩

/-- Longest run of non-whitespace characters at the head (the greedy `[^\s]+` capture). -/
def takeNonSpace (cs : List Char) : List Char := cs.takeWhile (fun c => !isJsSpace c)

/-- Case-insensitive match of a (lowercase) literal pattern at the head of the input;
returns the remainder on success.  Models the literal part of a `/.../i` regex. -/
def lowerEq : List Char → List Char → Option (List Char)
  | [], rest => some rest
  | _ :: _, [] => none
  | p :: ps, c :: cs => if c.toLower = p then lowerEq ps cs else none

/-- The literal of the regex `/barcode=([^\s]+)/i`. -/
def barcodePat : List Char := "barcode=".data

/-- Try the regex `/barcode=([^\s]+)/i` anchored at the current position:
the literal `barcode=` (case-insensitively) followed by a non-empty greedy
run of non-whitespace characters (the capture group). -/
def matchAt (cs : List Char) : Option (List Char) :=
  match lowerEq barcodePat cs with
  | some rest =>
      let tok := takeNonSpace rest
      if tok.isEmpty then none else some tok
  | none => none

/-- `line.match(/barcode=([^\s]+)/i)`: scan positions left to right, return the
capture group of the leftmost successful match. -/
def findBarcodeToken : List Char → Option (List Char)
  | [] => none
  | c :: cs =>
    match matchAt (c :: cs) with
    | some tok => some tok
    | none => findBarcodeToken cs

/-- The `match[1].trim()` value extracted from one log line, if the line matches. -/
def extractBarcode (line : String) : Option String :=
  (findBarcodeToken line.data).map (fun tok => ⟨trimList tok⟩)

/-- Worker for `splitNewlineRuns`: `acc` is the current segment (reversed),
`prevNl` records whether the previous character was a newline (so that a run of
newlines acts as a single separator, as `/\n+/` does). -/
def splitRunsGo (acc : List Char) (prevNl : Bool) : List Char → List (List Char)
  | [] => [acc.reverse]
  | c :: cs =>
    if c = '\n' then
      if prevNl then splitRunsGo acc true cs
      else acc.reverse :: splitRunsGo [] true cs
    else splitRunsGo (c :: acc) false cs

/-- JS `text.split(/\n+/)`: split on maximal runs of newline characters. -/
def splitNewlineRuns (cs : List Char) : List (List Char) :=
  splitRunsGo [] false cs

/-- `loadTextLog`'s parsing phase (`src/pages/Index.tsx`): split the persisted
text on newline runs, trim each line and drop blank ones, then for each line
matching `/barcode=([^\s]+)/i` collect the (trimmed) captured token, skipping
tokens already collected. -/
def parseUsedBarcodes (text : String) : List String :=
  let lines := ((splitNewlineRuns text.data).map trimList).filter (fun l => l ≠ [])
  lines.foldl (fun acc line =>
    match findBarcodeToken line with
    | some tok =>
        let code : String := ⟨trimList tok⟩
        if acc.contains code then acc else acc ++ [code]
    | none => acc) []

/-- `appendTextLog`'s read-modify-write of `session.log`: concatenate with a
newline separator unless the existing content is empty, in which case the new
line becomes the whole content. -/
def appendLine (existing line : String) : String :=
  if existing.length > 0 then existing ++ "\n" ++ line else line

/-- Application state: the `Index` page state plus the `RecordingControls`
state and the (modelled) file system.

* `barcodes` — `log.barcodes`, the in-memory used-barcode set.
* `isRecording` / `currentRecordingBarcode` — the `Index` mirror of the
  recording state.
* `outputFolder` — folder display name, `""` while none is selected.
* `hasDirHandle` — whether `dirHandle` is non-null.
* `fileLog` — content of `session.log` in the selected folder.
* `ctrlRecording` / `ctrlBarcode` — `RecordingControls`' own `isRecording`
  flag and the `currentCode` captured in the active recorder's `onstop`
  closure.
* `pendingSaves` — clips whose folder write was initiated by `onstop` but has
  not completed yet (`saveToFolder().then(...)` still outstanding). -/
structure AppState where
  barcodes : List String
  isRecording : Bool
  currentRecordingBarcode : String
  outputFolder : String
  hasDirHandle : Bool
  fileLog : String
  ctrlRecording : Bool
  ctrlBarcode : String
  pendingSaves : List String
  deriving DecidableEq, Repr

/-- Observable events, in the order the corresponding code runs.  The `…Line`
events record an `appendTextLog` call with the given payload (the append is a
no-op on the file when no directory handle is present). -/
inductive Ev where
  | reservedLine (code : String)
  | startLine (code : String)
  | stopLine (code : String)
  | savedLine (code file : String)
  | saveInitiated (code : String)
  | saveCompleted (code : String)
  | downloadFallback (file : String)
  | streamStopped (code : String)
  | stopResolved (code : String)
  | recStarted (code : String)
  | toastError (msg : String)
  | toastSuccess (msg : String)
  deriving DecidableEq, Repr

/-- `appendTextLog(line)`: silently a no-op when no directory handle is
available, otherwise read-modify-write of `session.log`.  Errors of the write
itself are swallowed (only logged to the console), so the caller never fails. -/
def appendTextLog (s : AppState) (line : String) : AppState :=
  if s.hasDirHandle then { s with fileLog := appendLine s.fileLog line } else s

/-- The `(\S+)` capture after `:\s*` in the log-entry messages: leading
whitespace skipped, then the greedy non-whitespace run. -/
def firstToken (s : String) : String := ⟨takeNonSpace (s.data.dropWhile isJsSpace)⟩

/-- `fname.replace(/\.mp4$/i, "")`: drop a trailing `.mp4` (case-insensitive). -/
def stripMp4 (s : String) : String :=
  if ((s.data.reverse.take 4).reverse.map Char.toLower) = ".mp4".data then
    ⟨s.data.take (s.data.length - 4)⟩
  else s

/-- The structured content of the `LogEntry` messages `handleLogEntry`
pattern-matches on (the remaining messages fall in no branch and append
nothing). -/
inductive EntryMsg where
  /-- `Started recording for barcode: <code>` -/
  | started (code : String)
  /-- `Recording stopped for barcode: <code>` -/
  | stopped (code : String)
  /-- `Recording saved: <code>.mp4` -/
  | saved (code : String)
  /-- any message matching none of the patterns, e.g. `Failed to start recording` -/
  | other

/-- `handleLogEntry` (`src/pages/Index.tsx`): turn a recording-controls log
entry into a simplified `START` / `STOP` / `SAVED` line of `session.log`.
The `START` branch also sets `currentRecordingBarcode` to the matched token. -/
def handleLogEntry (s : AppState) (ts : String) (e : EntryMsg) : AppState × List Ev :=
  match e with
  | .started code =>
      let tok := firstToken code
      if tok = "" then (s, []) else
      let s1 := { s with currentRecordingBarcode := tok }
      (appendTextLog s1 ("[" ++ ts ++ "] START barcode=" ++ tok), [Ev.startLine tok])
  | .stopped code =>
      let tok := firstToken code
      if tok = "" then (s, []) else
      (appendTextLog s ("[" ++ ts ++ "] STOP barcode=" ++ tok), [Ev.stopLine tok])
  | .saved code =>
      let fname := jsTrim (code ++ ".mp4")
      let bc := jsTrim (stripMp4 fname)
      (appendTextLog s ("[" ++ ts ++ "] SAVED barcode=" ++ bc ++ " file=" ++ fname),
       [Ev.savedLine bc fname])
  | .other => (s, [])

/-- The recorder's `onstop` handler (`RecordingControls.tsx`), as it runs for
the recording tied to `code`: *initiate* the clip save, stop the stream
tracks, emit the `Recording stopped` entry, and resolve the pending `stop()`
signal.  With a directory handle the write completes later
(`completePendingSave`); without one `saveToFolder` returns `false` at once
and the download fallback plus the `Recording saved` entry run in the
following microtask. -/
def onstopHandler (s : AppState) (ts : String) (code : String) : AppState × List Ev :=
  if s.hasDirHandle then
    let r :=
      handleLogEntry { s with pendingSaves := s.pendingSaves ++ [code] } ts (.stopped code)
    (r.1, [Ev.saveInitiated code, Ev.streamStopped code] ++ r.2 ++ [Ev.stopResolved code])
  else
    let r := handleLogEntry s ts (.stopped code)
    let r2 := handleLogEntry r.1 ts (.saved code)
    (r2.1, [Ev.saveInitiated code, Ev.streamStopped code] ++ r.2
            ++ [Ev.stopResolved code, Ev.downloadFallback (code ++ ".mp4")] ++ r2.2)

/-- The `saveToFolder().then(...)` callback firing once the oldest outstanding
folder write completes: the clip file is in the folder, the `Recording saved`
entry is emitted and the `SAVED` line appended. -/
def completePendingSave (s : AppState) (ts : String) : AppState × List Ev :=
  match s.pendingSaves with
  | [] => (s, [])
  | code :: rest =>
      let r := handleLogEntry { s with pendingSaves := rest } ts (.saved code)
      (r.1, [Ev.saveCompleted code] ++ r.2)

/-- `stopRecording` (`RecordingControls.tsx`) together with the `Index`
reaction `onRecordingStateChange(false)` (clear `isRecording` and
`currentRecordingBarcode`): when a recorder is active, arm the stop-resolve
ref, stop the recorder (which queues `onstop`), lower both recording flags,
toast, and then `onstop` runs and resolves the signal.  When idle, resolve
immediately with no effect. -/
def stopRecording (s : AppState) (ts : String) : AppState × List Ev :=
  if s.ctrlRecording then
    let r := onstopHandler
      { s with ctrlRecording := false, isRecording := false,
               currentRecordingBarcode := "" } ts s.ctrlBarcode
    (r.1, [Ev.toastSuccess "Recording stopped"] ++ r.2)
  else (s, [])

/-- `startWithBarcode` (`RecordingControls.tsx`): `startRecording(code, true)`
— reserve skipped.  `enabled` is `Boolean(outputFolder)`.  `deviceOk` models
the outcome of `getUserMedia`: on failure the controller stays idle and only
an error is surfaced.  On success the recorder starts, both recording flags
rise, and the `Started recording` entry sets `currentRecordingBarcode` and
appends the `START` line. -/
def startWithBarcode (s : AppState) (ts : String) (code : String) (deviceOk : Bool) :
    (AppState × Bool) × List Ev :=
  if s.outputFolder = "" then
    ((s, false), [Ev.toastError "Please select an output folder first"])
  else
    let currentCode := jsTrim code
    if currentCode = "" then
      ((s, false), [Ev.toastError "Please enter a barcode first"])
    else if deviceOk then
      let r := handleLogEntry
        { s with ctrlRecording := true, ctrlBarcode := currentCode,
                 isRecording := true } ts (.started currentCode)
      ((r.1, true), [Ev.recStarted currentCode, Ev.toastSuccess "Recording started"] ++ r.2)
    else
      ((s, false), [Ev.toastError "Failed to start recording"])

/-- `reserveBarcode` (`src/pages/Index.tsx`): trim; reject empty or
already-used codes with an error toast and no state change; otherwise add the
code to the in-memory used-set and append a `RESERVED` line. -/
def reserveBarcode (s : AppState) (ts : String) (code : String) :
    (AppState × Bool) × List Ev :=
  let normalized := jsTrim code
  if normalized = "" then
    ((s, false), [Ev.toastError "Barcode is empty"])
  else if s.barcodes.contains normalized then
    ((s, false), [Ev.toastError "Barcode already used. Please enter a unique barcode."])
  else
    let s1 := { s with barcodes := s.barcodes ++ [normalized] }
    let s2 := appendTextLog s1 ("[" ++ ts ++ "] RESERVED barcode=" ++ normalized)
    ((s2, true), [Ev.reservedLine normalized])

/-- `handleSubmitBarcode` (`src/pages/Index.tsx`): the submission coordinator.
Returns the updated state, the boolean submit result, and the event trace. -/
def handleSubmitBarcode (s : AppState) (ts : String) (code : String) (deviceOk : Bool) :
    (AppState × Bool) × List Ev :=
  let normalized := jsTrim code
  if normalized = "" then ((s, false), [])
  else if s.isRecording && normalized = s.currentRecordingBarcode then
    -- same barcode while recording: stop only, no restart
    let r := stopRecording s ts
    ((r.1, false),
     r.2 ++ [Ev.toastError "Same barcode entered; recording stopped and not restarted."])
  else if s.outputFolder = "" then
    ((s, false), [Ev.toastError "Please select an output folder first"])
  else if s.isRecording then
    -- switching to a different barcode: reserve first; only stop if reserve succeeds
    let r1 := reserveBarcode s ts normalized
    if !r1.1.2 then ((r1.1.1, false), r1.2)
    else
      let r2 := stopRecording r1.1.1 ts
      let r3 := startWithBarcode r2.1 ts normalized deviceOk
      let s4 :=
        if r3.1.2 then { r3.1.1 with currentRecordingBarcode := normalized } else r3.1.1
      ((s4, r3.1.2), r1.2 ++ r2.2 ++ r3.2)
  else
    -- not currently recording: reserve then start
    let r1 := reserveBarcode s ts normalized
    if !r1.1.2 then ((r1.1.1, false), r1.2)
    else
      let r2 := startWithBarcode r1.1.1 ts normalized deviceOk
      let s3 :=
        if r2.1.2 then { r2.1.1 with currentRecordingBarcode := normalized } else r2.1.1
      ((s3, r2.1.2), r1.2 ++ r2.2)

/-- `loadTextLog` (`src/pages/Index.tsx`).  `readResult` models reading
`session.log` (created empty when absent): `some text` is a successful read,
`none` a thrown error.  On success the parsed used-set replaces `log.barcodes`;
on error only an error toast is raised — `setLog` is never called, so the
previous used-set stays. -/
def loadTextLog (s : AppState) (readResult : Option String) : AppState × List Ev :=
  match readResult with
  | some text => ({ s with barcodes := parseUsedBarcodes text, fileLog := text }, [])
  | none => (s, [Ev.toastError "Unable to access session log file"])

/-- `handleFolderSelect` (`src/pages/Index.tsx`): store the directory handle
and folder name, then load (or initialize) `session.log` from the folder. -/
def handleFolderSelect (s : AppState) (name : String) (readResult : Option String) :
    AppState × List Ev :=
  let r := loadTextLog { s with hasDirHandle := true, outputFolder := name } readResult
  (r.1, r.2 ++ [Ev.toastSuccess ("Output folder selected: " ++ name)])

/-- `handleKeyDown` on Enter (`BarcodeInput.tsx`): with `field` the current
input value, ignore blank input, otherwise submit the trimmed code and clear
the field only when the submission reports success. -/
def handleKeyDown (s : AppState) (ts : String) (field : String) (deviceOk : Bool) :
    (AppState × String) × List Ev :=
  let code := jsTrim field
  if code = "" then ((s, field), [])
  else
    let r := handleSubmitBarcode s ts code deviceOk
    ((r.1.1, if r.1.2 then "" else field), r.2)

/-- Test fixture: fresh application state, nothing selected. -/
def idleNoFolderState : AppState :=
  { barcodes := [], isRecording := false, currentRecordingBarcode := "",
    outputFolder := "", hasDirHandle := false, fileLog := "",
    ctrlRecording := false, ctrlBarcode := "", pendingSaves := [] }

/-- Test fixture: folder `out` selected, barcode `A` reserved and recording. -/
def recordingAState : AppState :=
  { barcodes := ["A"], isRecording := true, currentRecordingBarcode := "A",
    outputFolder := "out", hasDirHandle := true,
    fileLog := "[t0] RESERVED barcode=A\n[t0] START barcode=A",
    ctrlRecording := true, ctrlBarcode := "A", pendingSaves := [] }

/-- Test fixture: like `recordingAState` but with `B` already used as well. -/
def recordingABState : AppState :=
  { recordingAState with barcodes := ["A", "B"] }

/-- A string all of whose characters are JS non-whitespace (so trimming and the
`[^\s]+` capture leave it intact). -/
def spaceFree (t : String) : Prop := ∀ c ∈ t.data, isJsSpace c = false

/-- First-occurrence-order deduplication, as the specification words it:
keep each element's first occurrence, drop later repeats. -/
def dedupFirst : List String → List String
  | [] => []
  | x :: xs => x :: dedupFirst (xs.filter (fun y => y ≠ x))
termination_by l => l.length
decreasing_by
  simp only [List.length_cons]
  exact Nat.lt_succ_of_le (List.length_filter_le _ _)

/-- The token stream `loadTextLog` scans: the (trimmed, non-blank) lines of the
text, each mapped through the `/barcode=([^\s]+)/i` extraction. -/
def extractedTokens (text : String) : List String :=
  (((splitNewlineRuns text.data).map trimList).filter (fun l => l ≠ [])).filterMap
    (fun l => (findBarcodeToken l).map (fun tok => ⟨trimList tok⟩))

/-- The load behaviour as the specification words it: the extracted barcode
tokens of all lines, deduplicated preserving first-occurrence order. -/
def specUsedBarcodes (text : String) : List String :=
  dedupFirst (extractedTokens text)

/-- The insertion step of `loadTextLog`'s fold: skip codes already collected,
else append. -/
def insertStep (acc : List String) (code : String) : List String :=
  if acc.contains code then acc else acc ++ [code]

/-- The per-line step of `loadTextLog`'s fold: extract the barcode token and
insert it. -/
def lineStep (acc : List String) (line : List Char) : List String :=
  match findBarcodeToken line with
  | some tok => insertStep acc ⟨trimList tok⟩
  | none => acc

/-- The four event-line kinds of the persisted session log. -/
inductive EventKind where
  | reserved
  | start
  | stop
  | saved
  deriving DecidableEq, Repr

/-- The literal keyword of an event-line kind. -/
def EventKind.render : EventKind → String
  | .reserved => "RESERVED"
  | .start => "START"
  | .stop => "STOP"
  | .saved => "SAVED"

/-- A well-formed session-log event line exactly as the application appends it:
`[<ts>] <KIND> barcode=<code>`, with ` file=<code>.mp4` appended for `SAVED`. -/
def renderEventLine (ts : String) (k : EventKind) (code : String) : String :=
  "[" ++ ts ++ "] " ++ k.render ++ " barcode=" ++ code ++
    (match k with
     | .saved => " file=" ++ code ++ ".mp4"
     | _ => "")

/-- Timestamps that can actually occur (ISO-8601): no newline, and no character
lowercasing to `b` — so no spurious `barcode=` match can start inside the
prefix of a rendered line. -/
def goodTs (ts : String) : Prop := ∀ c ∈ ts.data, c.toLower ≠ 'b' ∧ c ≠ '\n'

/-- Barcode tokens as the log format assumes them: non-empty and free of JS
whitespace (hence also newline-free). -/
def goodCode (code : String) : Prop := code ≠ "" ∧ spaceFree code

/-- Newline intercalation of character lists: the file content that repeated
`appendLine` produces from a sequence of non-empty lines. -/
def intercalNL : List (List Char) → List Char
  | [] => []
  | [l] => l
  | l :: l2 :: ls => l ++ '\n' :: intercalNL (l2 :: ls)

/-- Appending a sequence of lines to an initially empty log, one
`appendTextLog` read-modify-write at a time. -/
def joinLog (lines : List String) : String := List.foldl appendLine "" lines

instance (t : String) : Decidable (spaceFree t) :=
  inferInstanceAs (Decidable (∀ c ∈ t.data, isJsSpace c = false))

instance (ts : String) : Decidable (goodTs ts) :=
  inferInstanceAs (Decidable (∀ c ∈ ts.data, c.toLower ≠ 'b' ∧ c ≠ '\n'))

instance (code : String) : Decidable (goodCode code) :=
  inferInstanceAs (Decidable (code ≠ "" ∧ spaceFree code))

/-- The C10 invariant: whenever the coordinator is not recording, the
current-recording barcode is empty. -/
def RecordingIdleInv (s : AppState) : Prop :=
  s.isRecording = false → s.currentRecordingBarcode = ""

instance (s : AppState) : Decidable (RecordingIdleInv s) :=
  inferInstanceAs (Decidable (s.isRecording = false → s.currentRecordingBarcode = ""))

end ShipSight

namespace ShipSight

-- sanity checks (concrete evaluations of the embedded definitions)
example : parseUsedBarcodes "[t] RESERVED barcode=X\n[t] RESERVED barcode=Y\n[t] RESERVED barcode=X" = ["X", "Y"] := by decide

example : extractBarcode "[2025-01-01] START barcode=ABC123" = some "ABC123" := by decide

example : extractBarcode "nothing here" = none := by decide

example : extractBarcode "noise BARCODE=q7 more" = some "q7" := by decide

example : appendLine "" "a" = "a" := rfl

example : appendLine "a" "b" = "a\nb" := rfl

example : parseUsedBarcodes "" = [] := by decide

example : parseUsedBarcodes "\n\n  \nbarcode= \nbarcode=z" = ["z"] := by decide

example :
    handleSubmitBarcode recordingAState "t1" "B" true =
      (({ barcodes := ["A", "B"], isRecording := true, currentRecordingBarcode := "B",
          outputFolder := "out", hasDirHandle := true,
          fileLog := "[t0] RESERVED barcode=A\n[t0] START barcode=A\n[t1] RESERVED barcode=B\n[t1] STOP barcode=A\n[t1] START barcode=B",
          ctrlRecording := true, ctrlBarcode := "B", pendingSaves := ["A"] }, true),
       [Ev.reservedLine "B", Ev.toastSuccess "Recording stopped", Ev.saveInitiated "A",
        Ev.streamStopped "A", Ev.stopLine "A", Ev.stopResolved "A", Ev.recStarted "B",
        Ev.toastSuccess "Recording started", Ev.startLine "B"]) := by decide

example :
    (handleSubmitBarcode recordingAState "t1" " A " true).1 = (
      { recordingAState with
        isRecording := false
        currentRecordingBarcode := ""
        ctrlRecording := false
        fileLog := recordingAState.fileLog ++ "\n[t1] STOP barcode=A"
        pendingSaves := ["A"] }, false) := by decide

example :
    handleSubmitBarcode recordingAState "t1" "A " false =
      (({ recordingAState with
          isRecording := false
          currentRecordingBarcode := ""
          ctrlRecording := false
          fileLog := recordingAState.fileLog ++ "\n[t1] STOP barcode=A"
          pendingSaves := ["A"] }, false),
       [Ev.toastSuccess "Recording stopped", Ev.saveInitiated "A", Ev.streamStopped "A",
        Ev.stopLine "A", Ev.stopResolved "A",
        Ev.toastError "Same barcode entered; recording stopped and not restarted."]) := by
  decide

example :
    handleSubmitBarcode { recordingAState with barcodes := ["A", "B"] } "t1" "B" true =
      (({ recordingAState with barcodes := ["A", "B"] }, false),
       [Ev.toastError "Barcode already used. Please enter a unique barcode."]) := by decide

example :
    completePendingSave
      { recordingAState with pendingSaves := ["A"] } "t2" =
      ({ recordingAState with
         pendingSaves := []
         fileLog := recordingAState.fileLog ++ "\n[t2] SAVED barcode=A file=A.mp4" },
       [Ev.saveCompleted "A", Ev.savedLine "A" "A.mp4"]) := by decide

/-! ### Helper lemmas about trimming and token extraction -/

theorem dropWhile_all_false {p : Char → Bool} {l : List Char}
    (h : ∀ c ∈ l, p c = false) : l.dropWhile p = l := by
  induction l with
  | nil => rfl
  | cons x xs ih =>
      rw [List.dropWhile_cons, h x (by simp)]
      simp only [Bool.false_eq_true, if_false]

theorem dropWhile_head?_false {p : Char → Bool} {l : List Char} {c : Char}
    (h : (l.dropWhile p).head? = some c) : p c = false := by
  induction l with
  | nil => simp [List.dropWhile] at h
  | cons x xs ih =>
      rw [List.dropWhile_cons] at h
      by_cases hx : p x
      · exact ih (by simpa [hx] using h)
      · simp only [hx, Bool.false_eq_true, if_false, List.head?_cons,
          Option.some.injEq] at h
        subst h
        simpa using hx

theorem dropWhile_eq_self_of_head? {p : Char → Bool} {l : List Char}
    (h : ∀ c, l.head? = some c → p c = false) : l.dropWhile p = l := by
  cases l with
  | nil => rfl
  | cons x xs =>
      rw [List.dropWhile_cons, h x (by simp)]
      simp only [Bool.false_eq_true, if_false]

theorem dropWhile_decomp (p : Char → Bool) (l : List Char) :
    ∃ t, l = t ++ l.dropWhile p := by
  induction l with
  | nil => exact ⟨[], rfl⟩
  | cons x xs ih =>
      rw [List.dropWhile_cons]
      by_cases hx : p x
      · obtain ⟨t, ht⟩ := ih
        exact ⟨x :: t, by simp [hx, ← ht]⟩
      · exact ⟨[], by simp [hx]⟩

theorem trimmed_dropWhile_eq_self (m : List Char) :
    ((m.dropWhile isJsSpace).reverse.dropWhile isJsSpace).reverse.dropWhile isJsSpace
      = ((m.dropWhile isJsSpace).reverse.dropWhile isJsSpace).reverse := by
  apply dropWhile_eq_self_of_head?
  intro c hc
  obtain ⟨t, ht⟩ := dropWhile_decomp isJsSpace (m.dropWhile isJsSpace).reverse
  have hwne : (m.dropWhile isJsSpace).reverse.dropWhile isJsSpace ≠ [] := by
    intro h
    rw [h] at hc
    simp at hc
  have hchain : ((m.dropWhile isJsSpace).reverse.dropWhile isJsSpace).reverse.head?
      = (m.dropWhile isJsSpace).head? :=
    calc ((m.dropWhile isJsSpace).reverse.dropWhile isJsSpace).reverse.head?
        = ((m.dropWhile isJsSpace).reverse.dropWhile isJsSpace).getLast? :=
          List.head?_reverse _
      _ = (t ++ (m.dropWhile isJsSpace).reverse.dropWhile isJsSpace).getLast? :=
          (List.getLast?_append_of_ne_nil t hwne).symm
      _ = (m.dropWhile isJsSpace).reverse.getLast? := by rw [← ht]
      _ = (m.dropWhile isJsSpace).head? := List.getLast?_reverse _
  rw [hchain] at hc
  exact dropWhile_head?_false hc

theorem trimList_idem (l : List Char) : trimList (trimList l) = trimList l := by
  unfold trimList
  rw [trimmed_dropWhile_eq_self l, List.reverse_reverse, List.dropWhile_idempotent]

theorem jsTrim_idem (s : String) : jsTrim (jsTrim s) = jsTrim s := by
  unfold jsTrim
  exact congrArg String.mk (trimList_idem s.data)

theorem trimList_eq_self_of_ends {l : List Char}
    (h1 : ∀ c, l.head? = some c → isJsSpace c = false)
    (h2 : ∀ c, l.getLast? = some c → isJsSpace c = false) :
    trimList l = l := by
  unfold trimList
  rw [dropWhile_eq_self_of_head? h1]
  rw [dropWhile_eq_self_of_head? (by intro c hc; rw [List.head?_reverse] at hc; exact h2 c hc)]
  exact List.reverse_reverse l

theorem trimList_all_false {l : List Char}
    (h : ∀ c ∈ l, isJsSpace c = false) : trimList l = l := by
  unfold trimList
  rw [dropWhile_all_false h, dropWhile_all_false (by intro c hc; exact h c (by simpa using hc))]
  exact List.reverse_reverse l

theorem jsTrim_spaceFree {t : String} (h : spaceFree t) : jsTrim t = t := by
  unfold jsTrim
  rw [trimList_all_false h]

theorem firstToken_spaceFree {t : String} (h : spaceFree t) : firstToken t = t := by
  unfold firstToken takeNonSpace
  rw [dropWhile_all_false h, List.takeWhile_eq_self_iff.mpr (by intro c hc; simp [h c hc])]

theorem spaceFree_jsTrim_ne_empty {t : String} (h1 : spaceFree t) (h2 : t ≠ "") :
    jsTrim t ≠ "" := by
  rw [jsTrim_spaceFree h1]
  exact h2

/-! ### State-preservation lemmas -/

@[simp] theorem appendTextLog_barcodes (s : AppState) (line : String) :
    (appendTextLog s line).barcodes = s.barcodes := by
  unfold appendTextLog; split <;> rfl

@[simp] theorem appendTextLog_isRecording (s : AppState) (line : String) :
    (appendTextLog s line).isRecording = s.isRecording := by
  unfold appendTextLog; split <;> rfl

@[simp] theorem appendTextLog_currentRecordingBarcode (s : AppState) (line : String) :
    (appendTextLog s line).currentRecordingBarcode = s.currentRecordingBarcode := by
  unfold appendTextLog; split <;> rfl

@[simp] theorem appendTextLog_outputFolder (s : AppState) (line : String) :
    (appendTextLog s line).outputFolder = s.outputFolder := by
  unfold appendTextLog; split <;> rfl

@[simp] theorem appendTextLog_hasDirHandle (s : AppState) (line : String) :
    (appendTextLog s line).hasDirHandle = s.hasDirHandle := by
  unfold appendTextLog; split <;> rfl

@[simp] theorem appendTextLog_ctrlRecording (s : AppState) (line : String) :
    (appendTextLog s line).ctrlRecording = s.ctrlRecording := by
  unfold appendTextLog; split <;> rfl

@[simp] theorem appendTextLog_ctrlBarcode (s : AppState) (line : String) :
    (appendTextLog s line).ctrlBarcode = s.ctrlBarcode := by
  unfold appendTextLog; split <;> rfl

@[simp] theorem appendTextLog_pendingSaves (s : AppState) (line : String) :
    (appendTextLog s line).pendingSaves = s.pendingSaves := by
  unfold appendTextLog; split <;> rfl

@[simp] theorem handleLogEntry_barcodes (s : AppState) (ts : String) (e : EntryMsg) :
    (handleLogEntry s ts e).1.barcodes = s.barcodes := by
  unfold handleLogEntry; cases e <;> simp only [] <;> try split
  all_goals simp

@[simp] theorem handleLogEntry_isRecording (s : AppState) (ts : String) (e : EntryMsg) :
    (handleLogEntry s ts e).1.isRecording = s.isRecording := by
  unfold handleLogEntry; cases e <;> simp only [] <;> try split
  all_goals simp

@[simp] theorem handleLogEntry_ctrlRecording (s : AppState) (ts : String) (e : EntryMsg) :
    (handleLogEntry s ts e).1.ctrlRecording = s.ctrlRecording := by
  unfold handleLogEntry; cases e <;> simp only [] <;> try split
  all_goals simp

@[simp] theorem handleLogEntry_ctrlBarcode (s : AppState) (ts : String) (e : EntryMsg) :
    (handleLogEntry s ts e).1.ctrlBarcode = s.ctrlBarcode := by
  unfold handleLogEntry; cases e <;> simp only [] <;> try split
  all_goals simp

@[simp] theorem handleLogEntry_outputFolder (s : AppState) (ts : String) (e : EntryMsg) :
    (handleLogEntry s ts e).1.outputFolder = s.outputFolder := by
  unfold handleLogEntry; cases e <;> simp only [] <;> try split
  all_goals simp

@[simp] theorem handleLogEntry_hasDirHandle (s : AppState) (ts : String) (e : EntryMsg) :
    (handleLogEntry s ts e).1.hasDirHandle = s.hasDirHandle := by
  unfold handleLogEntry; cases e <;> simp only [] <;> try split
  all_goals simp

@[simp] theorem handleLogEntry_pendingSaves (s : AppState) (ts : String) (e : EntryMsg) :
    (handleLogEntry s ts e).1.pendingSaves = s.pendingSaves := by
  unfold handleLogEntry; cases e <;> simp only [] <;> try split
  all_goals simp

@[simp] theorem handleLogEntry_stopped_current (s : AppState) (ts code : String) :
    (handleLogEntry s ts (.stopped code)).1.currentRecordingBarcode
      = s.currentRecordingBarcode := by
  simp only [handleLogEntry]
  split <;> simp

@[simp] theorem handleLogEntry_saved_current (s : AppState) (ts code : String) :
    (handleLogEntry s ts (.saved code)).1.currentRecordingBarcode
      = s.currentRecordingBarcode := by
  simp only [handleLogEntry]
  simp

@[simp] theorem onstopHandler_barcodes (s : AppState) (ts code : String) :
    (onstopHandler s ts code).1.barcodes = s.barcodes := by
  unfold onstopHandler; split <;> simp

@[simp] theorem onstopHandler_isRecording (s : AppState) (ts code : String) :
    (onstopHandler s ts code).1.isRecording = s.isRecording := by
  unfold onstopHandler; split <;> simp

@[simp] theorem onstopHandler_ctrlRecording (s : AppState) (ts code : String) :
    (onstopHandler s ts code).1.ctrlRecording = s.ctrlRecording := by
  unfold onstopHandler; split <;> simp

@[simp] theorem onstopHandler_ctrlBarcode (s : AppState) (ts code : String) :
    (onstopHandler s ts code).1.ctrlBarcode = s.ctrlBarcode := by
  unfold onstopHandler; split <;> simp

@[simp] theorem onstopHandler_outputFolder (s : AppState) (ts code : String) :
    (onstopHandler s ts code).1.outputFolder = s.outputFolder := by
  unfold onstopHandler; split <;> simp

@[simp] theorem onstopHandler_hasDirHandle (s : AppState) (ts code : String) :
    (onstopHandler s ts code).1.hasDirHandle = s.hasDirHandle := by
  unfold onstopHandler; split <;> simp

@[simp] theorem onstopHandler_current (s : AppState) (ts code : String) :
    (onstopHandler s ts code).1.currentRecordingBarcode = s.currentRecordingBarcode := by
  unfold onstopHandler; split <;> simp

@[simp] theorem stopRecording_barcodes (s : AppState) (ts : String) :
    (stopRecording s ts).1.barcodes = s.barcodes := by
  unfold stopRecording; split <;> simp

theorem stopRecording_active_state (s : AppState) (ts : String)
    (hctrl : s.ctrlRecording = true) :
    (stopRecording s ts).1.isRecording = false ∧
      (stopRecording s ts).1.ctrlRecording = false ∧
      (stopRecording s ts).1.currentRecordingBarcode = "" := by
  unfold stopRecording
  simp [hctrl]

theorem stopRecording_idle_state (s : AppState) (ts : String)
    (hctrl : s.ctrlRecording = false) :
    stopRecording s ts = (s, []) := by
  unfold stopRecording
  simp [hctrl]

theorem handleLogEntry_stopped_events (s : AppState) (ts code : String) :
    (handleLogEntry s ts (.stopped code)).2 = [] ∨
      (handleLogEntry s ts (.stopped code)).2 = [Ev.stopLine (firstToken code)] := by
  simp only [handleLogEntry]
  split
  · exact Or.inl rfl
  · exact Or.inr rfl

theorem handleLogEntry_saved_events (s : AppState) (ts code : String) :
    (handleLogEntry s ts (.saved code)).2 =
      [Ev.savedLine (jsTrim (stripMp4 (jsTrim (code ++ ".mp4")))) (jsTrim (code ++ ".mp4"))] := by
  simp only [handleLogEntry]

theorem stopRecording_no_start_events (s : AppState) (ts : String) (c : String) :
    Ev.recStarted c ∉ (stopRecording s ts).2 ∧
      Ev.startLine c ∉ (stopRecording s ts).2 ∧
      Ev.reservedLine c ∉ (stopRecording s ts).2 := by
  unfold stopRecording onstopHandler
  split
  · by_cases htok : firstToken s.ctrlBarcode = "" <;>
      split <;> simp [handleLogEntry, htok]
  · simp

/-! ### Claim theorems -/

/-- C1: while `Recording(A)`, submitting a barcode `B` whose trimmed form
differs from `A` and whose reservation is rejected (empty after trimming, or
already in the used-barcode set) returns failure and leaves the state exactly
unchanged — still `Recording(A)`, same used-set, same `session.log` — and the
trace consists of error toasts only (in particular no stop is issued and no
`STOP` line is appended). -/
theorem reserveBarcode_rejected (s : AppState) (ts code : String)
    (h : jsTrim code = "" ∨ jsTrim code ∈ s.barcodes) :
    ∃ m, reserveBarcode s ts code = ((s, false), [Ev.toastError m]) := by
  unfold reserveBarcode
  by_cases hE : jsTrim code = ""
  · exact ⟨"Barcode is empty", by simp [hE]⟩
  · have hDup : jsTrim code ∈ s.barcodes := h.resolve_left hE
    exact ⟨"Barcode already used. Please enter a unique barcode.", by simp [hE, hDup]⟩

theorem c1_reject_leaves_recording_untouched
    (s : AppState) (ts B : String) (deviceOk : Bool)
    (hrec : s.isRecording = true)
    (hne : jsTrim B ≠ s.currentRecordingBarcode)
    (hrej : jsTrim B = "" ∨ jsTrim B ∈ s.barcodes) :
    (handleSubmitBarcode s ts B deviceOk).1 = (s, false) ∧
      ∀ e ∈ (handleSubmitBarcode s ts B deviceOk).2, ∃ m, e = Ev.toastError m := by
  by_cases hE : jsTrim B = ""
  · refine ⟨by simp [handleSubmitBarcode, hE], ?_⟩
    intro e he
    simp [handleSubmitBarcode, hE] at he
  · have hDup : jsTrim B ∈ s.barcodes := hrej.resolve_left hE
    by_cases hF : s.outputFolder = ""
    · have hsub : handleSubmitBarcode s ts B deviceOk =
          ((s, false), [Ev.toastError "Please select an output folder first"]) := by
        unfold handleSubmitBarcode
        simp [hE, hne, hF]
      rw [hsub]
      exact ⟨rfl, by intro e he; simp at he; exact ⟨_, he⟩⟩
    · obtain ⟨m, hm⟩ := reserveBarcode_rejected s ts (jsTrim B)
        (Or.inr (by rw [jsTrim_idem]; exact hDup))
      have hsub : handleSubmitBarcode s ts B deviceOk = ((s, false), [Ev.toastError m]) := by
        unfold handleSubmitBarcode
        simp only [hE, hne, hrec, hF, hm]
        simp
      rw [hsub]
      exact ⟨rfl, by intro e he; simp at he; exact ⟨_, he⟩⟩

/-- C1 witness: while recording `A` with `B` already used, submitting `B`
changes nothing and yields only an error toast. -/
theorem c1_witness :
    (handleSubmitBarcode recordingABState "t1" "B" true).1 = (recordingABState, false) ∧
      ∀ e ∈ (handleSubmitBarcode recordingABState "t1" "B" true).2,
        ∃ m, e = Ev.toastError m :=
  c1_reject_leaves_recording_untouched recordingABState "t1" "B" true (by decide)
    (by decide) (Or.inr (by decide))

/-- C4 counterexample: the claim says a failing log read yields an *empty*
used-barcode set.  In the code the `catch` branch never calls `setLog`, so the
previous used-set survives: loading with a read error from a state whose
used-set is `["X"]` leaves it `["X"]`, not `[]`. -/
theorem c4_counterexample :
    (loadTextLog { idleNoFolderState with barcodes := ["X"] } none).1.barcodes = ["X"] ∧
      ["X"] ≠ ([] : List String) ∧
      (loadTextLog { idleNoFolderState with barcodes := ["X"] } none).2 =
        [Ev.toastError "Unable to access session log file"] := by
  refine ⟨by decide, by decide, by decide⟩

/-- C4 amended: on a log read error, folder selection still completes (handle
and name are set), an error is reported, and the used-barcode set is left
*unchanged* (hence empty only when it was already empty); no log parsing
happens. -/
theorem c4_load_error_soft (s : AppState) (name : String) :
    handleFolderSelect s name none =
      ({ s with hasDirHandle := true, outputFolder := name },
       [Ev.toastError "Unable to access session log file",
        Ev.toastSuccess ("Output folder selected: " ++ name)]) := by
  simp [handleFolderSelect, loadTextLog]

/-- C5: submitting the active recording's own barcode (via Enter in the
barcode field) stops the recording and nothing else: the submission reports
failure, the input field is not cleared, no reservation or start happens, the
used-set is unchanged, a warning toast is surfaced, and afterwards the
controller is idle. -/
theorem handleSubmitBarcode_same_eq (s : AppState) (ts code : String) (deviceOk : Bool)
    (hrec : s.isRecording = true)
    (hne : jsTrim code ≠ "")
    (hsame : jsTrim code = s.currentRecordingBarcode) :
    handleSubmitBarcode s ts code deviceOk =
      (((stopRecording s ts).1, false),
       (stopRecording s ts).2 ++
         [Ev.toastError "Same barcode entered; recording stopped and not restarted."]) := by
  have hcur : ¬s.currentRecordingBarcode = "" := hsame ▸ hne
  unfold handleSubmitBarcode
  simp [hne, hsame, hrec, hcur]

theorem c5_same_barcode_stop_only
    (s : AppState) (ts field : String) (deviceOk : Bool)
    (hrec : s.isRecording = true)
    (hctrl : s.ctrlRecording = true)
    (hsame : jsTrim field = s.currentRecordingBarcode)
    (hne : s.currentRecordingBarcode ≠ "") :
    (handleKeyDown s ts field deviceOk).1.2 = field ∧
      (handleKeyDown s ts field deviceOk).1.1.isRecording = false ∧
      (handleKeyDown s ts field deviceOk).1.1.ctrlRecording = false ∧
      (handleKeyDown s ts field deviceOk).1.1.barcodes = s.barcodes ∧
      Ev.toastError "Same barcode entered; recording stopped and not restarted." ∈
        (handleKeyDown s ts field deviceOk).2 ∧
      ∀ c, Ev.recStarted c ∉ (handleKeyDown s ts field deviceOk).2 ∧
        Ev.startLine c ∉ (handleKeyDown s ts field deviceOk).2 := by
  have hfne : jsTrim field ≠ "" := hsame ▸ hne
  have hsub := handleSubmitBarcode_same_eq s ts (jsTrim field) deviceOk hrec
    (by rw [jsTrim_idem]; exact hfne) (by rw [jsTrim_idem]; exact hsame)
  have hkd : handleKeyDown s ts field deviceOk =
      (((stopRecording s ts).1, field),
       (stopRecording s ts).2 ++
         [Ev.toastError "Same barcode entered; recording stopped and not restarted."]) := by
    unfold handleKeyDown
    simp [hfne, hsub]
  rw [hkd]
  obtain ⟨h1, h2, _⟩ := stopRecording_active_state s ts hctrl
  refine ⟨rfl, h1, h2, stopRecording_barcodes s ts, by simp, ?_⟩
  intro c
  obtain ⟨hs1, hs2, _⟩ := stopRecording_no_start_events s ts c
  constructor <;> simp [hs1, hs2]

/-- C5 witness at the concrete recording state. -/
theorem c5_witness :
    (handleKeyDown recordingAState "t1" " A " true).1.2 = " A " ∧
      (handleKeyDown recordingAState "t1" " A " true).1.1.isRecording = false ∧
      (handleKeyDown recordingAState "t1" " A " true).1.1.ctrlRecording = false ∧
      (handleKeyDown recordingAState "t1" " A " true).1.1.barcodes =
        recordingAState.barcodes ∧
      Ev.toastError "Same barcode entered; recording stopped and not restarted." ∈
        (handleKeyDown recordingAState "t1" " A " true).2 ∧
      ∀ c, Ev.recStarted c ∉ (handleKeyDown recordingAState "t1" " A " true).2 ∧
        Ev.startLine c ∉ (handleKeyDown recordingAState "t1" " A " true).2 :=
  c5_same_barcode_stop_only recordingAState "t1" " A " true (by decide) (by decide)
    (by decide) (by decide)

/-- C8 counterexample: the claim says *every* submission with no output folder
surfaces an error.  A code that trims to the empty string is returned as a
silent failure before the folder check: no toast at all is raised. -/
theorem c8_counterexample :
    handleSubmitBarcode idleNoFolderState "t" " " true = ((idleNoFolderState, false), []) := by
  decide

/-- C8 amended: when no output folder is selected, the controller is idle and
the submitted code does not trim to empty, submission surfaces the folder
error, returns failure, and changes no state (same used-set, same log, still
idle). -/
theorem c8_no_folder_rejects
    (s : AppState) (ts code : String) (deviceOk : Bool)
    (hF : s.outputFolder = "")
    (hrec : s.isRecording = false)
    (hne : jsTrim code ≠ "") :
    handleSubmitBarcode s ts code deviceOk =
      ((s, false), [Ev.toastError "Please select an output folder first"]) := by
  simp [handleSubmitBarcode, hne, hrec, hF]

/-- C8 witness. -/
theorem c8_witness :
    handleSubmitBarcode idleNoFolderState "t" "X1" true =
      ((idleNoFolderState, false), [Ev.toastError "Please select an output folder first"]) :=
  c8_no_folder_rejects idleNoFolderState "t" "X1" true (by decide) (by decide) (by decide)

/-- C9: with no directory handle, `appendTextLog` completes as a successful
no-op (the state, in particular `fileLog`, is returned unchanged and the
caller sees no error), and consequently `reserveBarcode` of a fresh non-empty
code still succeeds and extends the in-memory used-set even though no
`RESERVED` line was persisted. -/
theorem c9_append_noop_reserve_succeeds
    (s : AppState) (ts line code : String)
    (hH : s.hasDirHandle = false)
    (hne : jsTrim code ≠ "")
    (hfresh : jsTrim code ∉ s.barcodes) :
    appendTextLog s line = s ∧
      reserveBarcode s ts code =
        (({ s with barcodes := s.barcodes ++ [jsTrim code] }, true),
         [Ev.reservedLine (jsTrim code)]) ∧
      (reserveBarcode s ts code).1.1.fileLog = s.fileLog := by
  have happ : appendTextLog s line = s := by
    simp [appendTextLog, hH]
  refine ⟨happ, ?_, ?_⟩
  · simp [reserveBarcode, hne, hfresh, appendTextLog, hH]
  · simp [reserveBarcode, hne, hfresh, appendTextLog, hH]

/-- C9 witness. -/
theorem c9_witness :
    appendTextLog idleNoFolderState "[t] RESERVED barcode=Z" = idleNoFolderState ∧
      reserveBarcode idleNoFolderState "t" "Z" =
        (({ idleNoFolderState with barcodes := idleNoFolderState.barcodes ++ ["Z"] }, true),
         [Ev.reservedLine "Z"]) ∧
      (reserveBarcode idleNoFolderState "t" "Z").1.1.fileLog = idleNoFolderState.fileLog :=
  c9_append_noop_reserve_succeeds idleNoFolderState "t" "[t] RESERVED barcode=Z" "Z"
    (by decide) (by decide) (by decide)

/-- C2 counterexample: with a folder handle present, stopping the active
recording resolves the stop signal (`stopResolved`) while the clip write is
still pending: no `saveCompleted` and no `downloadFallback` occur anywhere in
the trace, and the save sits in `pendingSaves` after the operation — the
signal resolved merely because the device stopped streaming. -/
theorem c2_counterexample :
    (stopRecording recordingAState "t1").2 =
      [Ev.toastSuccess "Recording stopped", Ev.saveInitiated "A", Ev.streamStopped "A",
       Ev.stopLine "A", Ev.stopResolved "A"] ∧
      Ev.stopResolved "A" ∈ (stopRecording recordingAState "t1").2 ∧
      Ev.saveCompleted "A" ∉ (stopRecording recordingAState "t1").2 ∧
      Ev.downloadFallback "A.mp4" ∉ (stopRecording recordingAState "t1").2 ∧
      (stopRecording recordingAState "t1").1.pendingSaves = ["A"] := by
  decide

/-- C2 amended: when a recording is active and a folder handle is present, the
completion signal of `stop()` resolves after the device stream has stopped and
the clip save has been *initiated*; the write itself is still outstanding at
resolution time (`pendingSaves` gains the clip), so the signal does not wait
for the clip to be written. -/
theorem c2_stop_resolves_with_save_pending
    (s : AppState) (ts : String)
    (hctrl : s.ctrlRecording = true)
    (hH : s.hasDirHandle = true)
    (hcb : spaceFree s.ctrlBarcode)
    (hcbne : s.ctrlBarcode ≠ "") :
    (stopRecording s ts).1.pendingSaves = s.pendingSaves ++ [s.ctrlBarcode] ∧
      (stopRecording s ts).2 =
        [Ev.toastSuccess "Recording stopped", Ev.saveInitiated s.ctrlBarcode,
         Ev.streamStopped s.ctrlBarcode, Ev.stopLine s.ctrlBarcode,
         Ev.stopResolved s.ctrlBarcode] := by
  have htok : firstToken s.ctrlBarcode = s.ctrlBarcode := firstToken_spaceFree hcb
  constructor <;>
    simp [stopRecording, onstopHandler, handleLogEntry, hctrl, hH, htok, hcbne,
      appendTextLog]

/-- C3 counterexample: switching from `A` to a fresh `B` starts `B` while
`A`'s clip write is still pending: `recStarted B` is in the trace, but no
`saveCompleted A` occurs anywhere in it and the save is still in
`pendingSaves` once the submission returns — so `A`'s clip save did *not*
complete before `B`'s recording started. -/
theorem c3_counterexample :
    (handleSubmitBarcode recordingAState "t1" "B" true).2 =
      [Ev.reservedLine "B", Ev.toastSuccess "Recording stopped", Ev.saveInitiated "A",
       Ev.streamStopped "A", Ev.stopLine "A", Ev.stopResolved "A", Ev.recStarted "B",
       Ev.toastSuccess "Recording started", Ev.startLine "B"] ∧
      Ev.recStarted "B" ∈ (handleSubmitBarcode recordingAState "t1" "B" true).2 ∧
      Ev.saveCompleted "A" ∉ (handleSubmitBarcode recordingAState "t1" "B" true).2 ∧
      (handleSubmitBarcode recordingAState "t1" "B" true).1.1.pendingSaves = ["A"] := by
  decide

/-- C3 amended: submitting fresh `B ≠ A` while recording `A` reserves `B`,
stops `A` (initiating — not completing — the persistence of `A`'s clip), then
starts `B`; the `STOP barcode=A` line precedes `START barcode=B` both in the
event trace (indices below) and in the appended `session.log` content, and
`A`'s still-pending save completes only after `B`'s recording has started. -/
theorem c3_switch_stop_before_start
    (s : AppState) (ts B : String)
    (hrec : s.isRecording = true)
    (hctrl : s.ctrlRecording = true)
    (hH : s.hasDirHandle = true)
    (hF : s.outputFolder ≠ "")
    (hcb : s.ctrlBarcode = s.currentRecordingBarcode)
    (hA : spaceFree s.currentRecordingBarcode)
    (hAne : s.currentRecordingBarcode ≠ "")
    (hBsf : spaceFree (jsTrim B))
    (hBne : jsTrim B ≠ "")
    (hBA : jsTrim B ≠ s.currentRecordingBarcode)
    (hBfresh : jsTrim B ∉ s.barcodes) :
    handleSubmitBarcode s ts B true =
      (({ s with
          barcodes := s.barcodes ++ [jsTrim B]
          isRecording := true
          currentRecordingBarcode := jsTrim B
          ctrlRecording := true
          ctrlBarcode := jsTrim B
          pendingSaves := s.pendingSaves ++ [s.currentRecordingBarcode]
          fileLog := appendLine (appendLine (appendLine s.fileLog
              ("[" ++ ts ++ "] RESERVED barcode=" ++ jsTrim B))
              ("[" ++ ts ++ "] STOP barcode=" ++ s.currentRecordingBarcode))
              ("[" ++ ts ++ "] START barcode=" ++ jsTrim B) }, true),
       [Ev.reservedLine (jsTrim B), Ev.toastSuccess "Recording stopped",
        Ev.saveInitiated s.currentRecordingBarcode,
        Ev.streamStopped s.currentRecordingBarcode,
        Ev.stopLine s.currentRecordingBarcode,
        Ev.stopResolved s.currentRecordingBarcode,
        Ev.recStarted (jsTrim B), Ev.toastSuccess "Recording started",
        Ev.startLine (jsTrim B)]) ∧
      ∃ i j : Nat, i < j ∧
        (handleSubmitBarcode s ts B true).2[i]? =
          some (Ev.stopLine s.currentRecordingBarcode) ∧
        (handleSubmitBarcode s ts B true).2[j]? = some (Ev.startLine (jsTrim B)) := by
  have hB2 : jsTrim (jsTrim B) = jsTrim B := jsTrim_idem B
  have htokA : firstToken s.currentRecordingBarcode = s.currentRecordingBarcode :=
    firstToken_spaceFree hA
  have htokB : firstToken (jsTrim B) = jsTrim B := firstToken_spaceFree hBsf
  have heq : handleSubmitBarcode s ts B true =
      (({ s with
          barcodes := s.barcodes ++ [jsTrim B]
          isRecording := true
          currentRecordingBarcode := jsTrim B
          ctrlRecording := true
          ctrlBarcode := jsTrim B
          pendingSaves := s.pendingSaves ++ [s.currentRecordingBarcode]
          fileLog := appendLine (appendLine (appendLine s.fileLog
              ("[" ++ ts ++ "] RESERVED barcode=" ++ jsTrim B))
              ("[" ++ ts ++ "] STOP barcode=" ++ s.currentRecordingBarcode))
              ("[" ++ ts ++ "] START barcode=" ++ jsTrim B) }, true),
       [Ev.reservedLine (jsTrim B), Ev.toastSuccess "Recording stopped",
        Ev.saveInitiated s.currentRecordingBarcode,
        Ev.streamStopped s.currentRecordingBarcode,
        Ev.stopLine s.currentRecordingBarcode,
        Ev.stopResolved s.currentRecordingBarcode,
        Ev.recStarted (jsTrim B), Ev.toastSuccess "Recording started",
        Ev.startLine (jsTrim B)]) := by
    unfold handleSubmitBarcode reserveBarcode stopRecording onstopHandler startWithBarcode
      handleLogEntry appendTextLog
    simp [hBne, hBA, hF, hrec, hB2, hBfresh, hctrl, hH, hcb, htokA, htokB, hAne]
  exact ⟨heq, 4, 8, by norm_num, by rw [heq]; rfl, by rw [heq]; rfl⟩

/-- C3 witness. -/
theorem c3_witness :
    handleSubmitBarcode recordingAState "t1" "B" true =
      (({ recordingAState with
          barcodes := recordingAState.barcodes ++ [jsTrim "B"]
          isRecording := true
          currentRecordingBarcode := jsTrim "B"
          ctrlRecording := true
          ctrlBarcode := jsTrim "B"
          pendingSaves :=
            recordingAState.pendingSaves ++ [recordingAState.currentRecordingBarcode]
          fileLog := appendLine (appendLine (appendLine recordingAState.fileLog
              ("[" ++ "t1" ++ "] RESERVED barcode=" ++ jsTrim "B"))
              ("[" ++ "t1" ++ "] STOP barcode=" ++
                recordingAState.currentRecordingBarcode))
              ("[" ++ "t1" ++ "] START barcode=" ++ jsTrim "B") }, true),
       [Ev.reservedLine (jsTrim "B"), Ev.toastSuccess "Recording stopped",
        Ev.saveInitiated recordingAState.currentRecordingBarcode,
        Ev.streamStopped recordingAState.currentRecordingBarcode,
        Ev.stopLine recordingAState.currentRecordingBarcode,
        Ev.stopResolved recordingAState.currentRecordingBarcode,
        Ev.recStarted (jsTrim "B"), Ev.toastSuccess "Recording started",
        Ev.startLine (jsTrim "B")]) ∧
      ∃ i j : Nat, i < j ∧
        (handleSubmitBarcode recordingAState "t1" "B" true).2[i]? =
          some (Ev.stopLine recordingAState.currentRecordingBarcode) ∧
        (handleSubmitBarcode recordingAState "t1" "B" true).2[j]? =
          some (Ev.startLine (jsTrim "B")) :=
  c3_switch_stop_before_start recordingAState "t1" "B" (by decide) (by decide) (by decide)
    (by decide) (by decide) (by decide) (by decide) (by decide) (by decide) (by decide)
    (by decide)

/-- C2 witness. -/
theorem c2_witness :
    (stopRecording recordingAState "t1").1.pendingSaves =
        recordingAState.pendingSaves ++ [recordingAState.ctrlBarcode] ∧
      (stopRecording recordingAState "t1").2 =
        [Ev.toastSuccess "Recording stopped",
         Ev.saveInitiated recordingAState.ctrlBarcode,
         Ev.streamStopped recordingAState.ctrlBarcode,
         Ev.stopLine recordingAState.ctrlBarcode,
         Ev.stopResolved recordingAState.ctrlBarcode] :=
  c2_stop_resolves_with_save_pending recordingAState "t1" (by decide) (by decide)
    (by decide) (by decide)

/-! ### C10: invariant machinery -/

theorem inv_of_fields {s s' : AppState} (h : RecordingIdleInv s)
    (h1 : s'.isRecording = s.isRecording)
    (h2 : s'.currentRecordingBarcode = s.currentRecordingBarcode) :
    RecordingIdleInv s' := by
  intro hr
  rw [h2]
  exact h (h1 ▸ hr)

theorem inv_of_recording {s' : AppState} (h : s'.isRecording = true) :
    RecordingIdleInv s' := by
  intro hr
  rw [h] at hr
  exact absurd hr (by simp)

@[simp] theorem reserveBarcode_isRecording (s : AppState) (ts code : String) :
    (reserveBarcode s ts code).1.1.isRecording = s.isRecording := by
  simp only [reserveBarcode]
  split <;> try split
  all_goals simp

@[simp] theorem reserveBarcode_current (s : AppState) (ts code : String) :
    (reserveBarcode s ts code).1.1.currentRecordingBarcode = s.currentRecordingBarcode := by
  simp only [reserveBarcode]
  split <;> try split
  all_goals simp

theorem stopRecording_inv (s : AppState) (ts : String) (h : RecordingIdleInv s) :
    RecordingIdleInv (stopRecording s ts).1 := by
  by_cases hc : s.ctrlRecording
  · intro _
    exact (stopRecording_active_state s ts hc).2.2
  · rw [stopRecording_idle_state s ts (by simpa using hc)]
    exact h

theorem stopRecording_cases (s : AppState) (ts : String) :
    (stopRecording s ts).1.currentRecordingBarcode = "" ∨ stopRecording s ts = (s, []) := by
  by_cases hc : s.ctrlRecording
  · exact Or.inl (stopRecording_active_state s ts hc).2.2
  · exact Or.inr (stopRecording_idle_state s ts (by simpa using hc))

theorem startWithBarcode_state (s : AppState) (ts code : String) (deviceOk : Bool) :
    (startWithBarcode s ts code deviceOk).1 = (s, false) ∨
      ((startWithBarcode s ts code deviceOk).1.2 = true ∧
        (startWithBarcode s ts code deviceOk).1.1.isRecording = true) := by
  simp only [startWithBarcode]
  split
  · exact Or.inl rfl
  · split
    · exact Or.inl rfl
    · split
      · exact Or.inr ⟨rfl, by simp⟩
      · exact Or.inl rfl

theorem handleLogEntry_inv (s : AppState) (ts code : String) (h : RecordingIdleInv s) :
    RecordingIdleInv (handleLogEntry s ts (.saved code)).1 :=
  inv_of_fields h (handleLogEntry_isRecording s ts _) (handleLogEntry_saved_current s ts code)

theorem completePendingSave_inv (s : AppState) (ts : String) (h : RecordingIdleInv s) :
    RecordingIdleInv (completePendingSave s ts).1 := by
  unfold completePendingSave
  split
  · exact h
  · refine inv_of_fields h ?_ ?_ <;> simp

theorem handleFolderSelect_inv (s : AppState) (name : String) (readResult : Option String)
    (h : RecordingIdleInv s) :
    RecordingIdleInv (handleFolderSelect s name readResult).1 := by
  unfold handleFolderSelect loadTextLog
  cases readResult <;> exact fun hr => h hr

theorem handleSubmitBarcode_inv (s : AppState) (ts code : String) (deviceOk : Bool)
    (h : RecordingIdleInv s) :
    RecordingIdleInv (handleSubmitBarcode s ts code deviceOk).1.1 := by
  have hres : RecordingIdleInv (reserveBarcode s ts (jsTrim code)).1.1 :=
    inv_of_fields h (reserveBarcode_isRecording s ts _) (reserveBarcode_current s ts _)
  have hstop : RecordingIdleInv (stopRecording (reserveBarcode s ts (jsTrim code)).1.1 ts).1 :=
    stopRecording_inv _ ts hres
  simp only [handleSubmitBarcode]
  split
  · exact h
  split
  · exact stopRecording_inv s ts h
  split
  · exact h
  split
  · -- recording: reserve, then stop, then start
    split
    · exact hres
    · split
      · -- started: `isRecording` is true in the start-success state
        rcases startWithBarcode_state (stopRecording (reserveBarcode s ts (jsTrim code)).1.1 ts).1
            ts (jsTrim code) deviceOk with hfail | ⟨hok, hrec2⟩
        · rename_i hstarted
          rw [hfail] at hstarted
          exact absurd hstarted (by simp)
        · exact inv_of_recording (by simpa using hrec2)
      · rcases startWithBarcode_state (stopRecording (reserveBarcode s ts (jsTrim code)).1.1 ts).1
            ts (jsTrim code) deviceOk with hfail | ⟨hok, hrec2⟩
        · rw [hfail]
          exact hstop
        · exact inv_of_recording hrec2
  · -- idle: reserve then start
    split
    · exact hres
    · split
      · rcases startWithBarcode_state (reserveBarcode s ts (jsTrim code)).1.1
            ts (jsTrim code) deviceOk with hfail | ⟨hok, hrec2⟩
        · rename_i hstarted
          rw [hfail] at hstarted
          exact absurd hstarted (by simp)
        · exact inv_of_recording (by simpa using hrec2)
      · rcases startWithBarcode_state (reserveBarcode s ts (jsTrim code)).1.1
            ts (jsTrim code) deviceOk with hfail | ⟨hok, hrec2⟩
        · rw [hfail]
          exact hres
        · exact inv_of_recording hrec2

theorem handleSubmitBarcode_nonempty_implies_started (s : AppState) (ts code : String)
    (deviceOk : Bool) (hcur : s.currentRecordingBarcode = "")
    (hres : (handleSubmitBarcode s ts code deviceOk).1.1.currentRecordingBarcode ≠ "") :
    (handleSubmitBarcode s ts code deviceOk).1.2 = true := by
  by_contra hnot
  apply hres
  revert hnot
  simp only [handleSubmitBarcode]
  split
  · intro _
    exact hcur
  split
  · intro _
    rcases stopRecording_cases s ts with hc | hc
    · exact hc
    · rw [hc]
      exact hcur
  split
  · intro _
    exact hcur
  split
  · -- recording path: reserve, stop, start
    split
    · intro _
      rw [reserveBarcode_current]
      exact hcur
    · split
      · -- start reported success: contradicts the premise
        rename_i hstarted
        intro hnot
        simp only [] at hnot
        exact absurd hstarted (by simpa using hnot)
      · rename_i hnstart
        intro _
        rcases startWithBarcode_state (stopRecording (reserveBarcode s ts (jsTrim code)).1.1 ts).1
            ts (jsTrim code) deviceOk with hfail | ⟨hok, _⟩
        · rw [hfail]
          rcases stopRecording_cases (reserveBarcode s ts (jsTrim code)).1.1 ts with hc | hc
          · exact hc
          · rw [hc]
            rw [reserveBarcode_current]
            exact hcur
        · exact absurd hok (by simpa using hnstart)
  · -- idle path: reserve then start
    split
    · intro _
      rw [reserveBarcode_current]
      exact hcur
    · split
      · rename_i hstarted
        intro hnot
        simp only [] at hnot
        exact absurd hstarted (by simpa using hnot)
      · rename_i hnstart
        intro _
        rcases startWithBarcode_state (reserveBarcode s ts (jsTrim code)).1.1
            ts (jsTrim code) deviceOk with hfail | ⟨hok, _⟩
        · rw [hfail]
          rw [reserveBarcode_current]
          exact hcur
        · exact absurd hok (by simpa using hnstart)

/-- C10: the invariant "not recording implies empty current-recording barcode"
is preserved by every operation of the coordinator (submission, stop, pending
save completion, folder selection, and Enter in the barcode field), and from a
state with an empty current barcode the barcode can become non-empty only
through a submission that reports success (a successful start). -/
theorem c10_idle_barcode_empty_invariant
    (s : AppState) (ts code name field : String) (deviceOk : Bool)
    (readResult : Option String)
    (hInv : RecordingIdleInv s) :
    RecordingIdleInv (handleSubmitBarcode s ts code deviceOk).1.1 ∧
      RecordingIdleInv (stopRecording s ts).1 ∧
      RecordingIdleInv (completePendingSave s ts).1 ∧
      RecordingIdleInv (handleFolderSelect s name readResult).1 ∧
      RecordingIdleInv (handleKeyDown s ts field deviceOk).1.1 ∧
      (s.currentRecordingBarcode = "" →
        (handleSubmitBarcode s ts code deviceOk).1.1.currentRecordingBarcode ≠ "" →
        (handleSubmitBarcode s ts code deviceOk).1.2 = true) := by
  refine ⟨handleSubmitBarcode_inv s ts code deviceOk hInv, stopRecording_inv s ts hInv,
    completePendingSave_inv s ts hInv, handleFolderSelect_inv s name readResult hInv, ?_,
    fun hcur hres => handleSubmitBarcode_nonempty_implies_started s ts code deviceOk hcur hres⟩
  simp only [handleKeyDown]
  split
  · exact hInv
  · exact handleSubmitBarcode_inv s ts (jsTrim field) deviceOk hInv

/-- C10 witness at the fresh state. -/
theorem c10_witness :
    RecordingIdleInv
        (handleSubmitBarcode idleNoFolderState "t" "X" true).1.1 ∧
      RecordingIdleInv (stopRecording idleNoFolderState "t").1 ∧
      RecordingIdleInv (completePendingSave idleNoFolderState "t").1 ∧
      RecordingIdleInv (handleFolderSelect idleNoFolderState "out" (some "")).1 ∧
      RecordingIdleInv (handleKeyDown idleNoFolderState "t" "X" true).1.1 ∧
      (idleNoFolderState.currentRecordingBarcode = "" →
        (handleSubmitBarcode idleNoFolderState "t" "X"
            true).1.1.currentRecordingBarcode ≠ "" →
        (handleSubmitBarcode idleNoFolderState "t" "X" true).1.2 = true) :=
  c10_idle_barcode_empty_invariant idleNoFolderState "t" "X" "out" "X" true (some "")
    (by decide)

/-! ### C6: load extracts and deduplicates in first-occurrence order -/

theorem lineStep_none {l : List Char} (acc : List String)
    (h : findBarcodeToken l = none) : lineStep acc l = acc := by
  unfold lineStep
  rw [h]

theorem lineStep_some {l : List Char} {tok : List Char} (acc : List String)
    (h : findBarcodeToken l = some tok) :
    lineStep acc l = insertStep acc ⟨trimList tok⟩ := by
  unfold lineStep
  rw [h]

theorem parseUsedBarcodes_eq_foldl (text : String) :
    parseUsedBarcodes text =
      (((splitNewlineRuns text.data).map trimList).filter (fun l => l ≠ [])).foldl
        lineStep [] := rfl

theorem foldl_step_filterMap (ls : List (List Char)) (acc : List String) :
    ls.foldl lineStep acc
      = (ls.filterMap
            (fun l => (findBarcodeToken l).map
              (fun tok => (⟨trimList tok⟩ : String)))).foldl insertStep acc := by
  induction ls generalizing acc with
  | nil => rfl
  | cons l ls ih =>
      cases hf : findBarcodeToken l with
      | none =>
          rw [List.foldl_cons, lineStep_none acc hf, List.filterMap_cons]
          simp only [hf, Option.map_none']
          exact ih acc
      | some tok =>
          rw [List.foldl_cons, lineStep_some acc hf, List.filterMap_cons]
          simp only [hf, Option.map_some']
          rw [List.foldl_cons]
          exact ih _

theorem foldl_insert_eq_dedupFirst (cs : List String) : ∀ acc : List String,
    cs.foldl insertStep acc = acc ++ dedupFirst (cs.filter (fun c => !acc.contains c)) := by
  induction cs with
  | nil =>
      intro acc
      simp [dedupFirst]
  | cons c cs ih =>
      intro acc
      by_cases hc : acc.contains c
      · have hc2 : c ∈ acc := by simpa using hc
        rw [List.foldl_cons]
        rw [show insertStep acc c = acc by simp [insertStep, hc2]]
        rw [ih acc]
        congr 1
        rw [List.filter_cons]
        simp [hc2]
      · have hc2 : c ∉ acc := by simpa using hc
        rw [List.foldl_cons]
        rw [show insertStep acc c = acc ++ [c] by simp [insertStep, hc2]]
        rw [ih (acc ++ [c]), List.filter_cons]
        have hPc : (!acc.contains c) = true := by simpa using hc2
        simp only [hPc, if_true]
        rw [dedupFirst]
        have hfilter : cs.filter (fun x => !(acc ++ [c]).contains x)
            = (cs.filter (fun x => !acc.contains x)).filter (fun y => y ≠ c) := by
          rw [List.filter_filter]
          apply List.filter_congr
          intro a _
          cases hac : acc.contains a <;> by_cases hceq : a = c <;> simp_all
        rw [hfilter]
        simp

/-- C6: the used-set reconstruction of `loadTextLog` equals, for every log
text, the stream of `/barcode=([^\s]+)/i` tokens of its trimmed non-blank
lines deduplicated in first-occurrence order (`specUsedBarcodes`, written from
the specification's words); concretely, a log holding `RESERVED barcode=X`,
`RESERVED barcode=Y`, `RESERVED barcode=X` reconstructs `["X", "Y"]`. -/
theorem c6_load_dedup_first_occurrence :
    (∀ text, parseUsedBarcodes text = specUsedBarcodes text) ∧
      parseUsedBarcodes
          "[t] RESERVED barcode=X\n[t] RESERVED barcode=Y\n[t] RESERVED barcode=X"
        = ["X", "Y"] := by
  constructor
  · intro text
    rw [parseUsedBarcodes_eq_foldl, foldl_step_filterMap, foldl_insert_eq_dedupFirst]
    unfold specUsedBarcodes extractedTokens
    simp
  · decide

/-! ### C7: round-trip machinery -/

theorem string_length_pos {s : String} (h : s ≠ "") : 0 < s.length := by
  cases s with
  | mk data =>
      cases data with
      | nil => exact absurd rfl h
      | cons c cs => simp [String.length]

theorem appendLine_of_ne_empty {a : String} (b : String) (ha : a ≠ "") :
    appendLine a b = a ++ "\n" ++ b := by
  unfold appendLine
  rw [if_pos (string_length_pos ha)]

theorem intercalNL_two (a : List Char) (r : List Char) (rest : List (List Char)) :
    intercalNL (a :: r :: rest) = a ++ '\n' :: intercalNL (r :: rest) := rfl

theorem intercalNL_merge (a b : List Char) (rest : List (List Char)) :
    intercalNL ((a ++ '\n' :: b) :: rest) = a ++ '\n' :: intercalNL (b :: rest) := by
  cases rest with
  | nil => rfl
  | cons r rest' =>
      rw [intercalNL_two, intercalNL_two]
      simp

theorem append_string_ne_empty (l x : String) : l ++ "\n" ++ x ≠ "" := by
  intro hcontra
  have : (l ++ "\n" ++ x).data = [] := by rw [hcontra]
  simp [String.data_append] at this

theorem foldl_appendLine_data (ls : List String) : ∀ l : String, l ≠ "" →
    (List.foldl appendLine l ls).data = intercalNL (l.data :: ls.map String.data) := by
  induction ls with
  | nil =>
      intro l _
      rfl
  | cons x ls ih =>
      intro l hl
      rw [List.foldl_cons, appendLine_of_ne_empty x hl, ih _ (append_string_ne_empty l x),
        List.map_cons]
      rw [show (l ++ "\n" ++ x).data = l.data ++ '\n' :: x.data by
        simp [String.data_append]]
      rw [intercalNL_merge, intercalNL_two]

theorem joinLog_data (ls : List String) (h : ∀ x ∈ ls, x ≠ "") (hne : ls ≠ []) :
    (joinLog ls).data = intercalNL (ls.map String.data) := by
  cases ls with
  | nil => exact absurd rfl hne
  | cons l ls' =>
      unfold joinLog
      rw [List.foldl_cons, show appendLine "" l = l from rfl]
      exact foldl_appendLine_data ls' l (h l (by simp))

theorem splitRunsGo_no_newline (l : List Char) (hnl : ∀ c ∈ l, c ≠ '\n') :
    ∀ (acc rest : List Char) (b : Bool), l ≠ [] →
      splitRunsGo acc b (l ++ rest) = splitRunsGo (l.reverse ++ acc) false rest := by
  induction l with
  | nil =>
      intro acc rest b hcon
      exact absurd rfl hcon
  | cons c l' ih =>
      intro acc rest b _
      have hc : c ≠ '\n' := hnl c (by simp)
      rw [List.cons_append]
      rw [show splitRunsGo acc b (c :: (l' ++ rest)) = splitRunsGo (c :: acc) false (l' ++ rest)
        by simp [splitRunsGo, hc]]
      cases hl' : l' with
      | nil => simp
      | cons d l'' =>
          rw [← hl']
          rw [ih (fun x hx => hnl x (by simp [hx])) (c :: acc) rest false (by simp [hl'])]
          simp

theorem splitRunsGo_newline (acc rest : List Char) :
    splitRunsGo acc false ('\n' :: rest) = acc.reverse :: splitRunsGo [] true rest := by
  simp [splitRunsGo]

theorem splitRunsGo_true_false (a : List Char) (c : Char) (cs : List Char) (hc : c ≠ '\n') :
    splitRunsGo a true (c :: cs) = splitRunsGo a false (c :: cs) := by
  simp [splitRunsGo, hc]

theorem intercalNL_head (l2 : List Char) (ls : List (List Char)) :
    ∃ rest, intercalNL (l2 :: ls) = l2 ++ rest := by
  cases ls with
  | nil => exact ⟨[], by simp [intercalNL]⟩
  | cons r rs => exact ⟨'\n' :: intercalNL (r :: rs), rfl⟩

theorem splitNewlineRuns_intercalNL (ls : List (List Char)) : ∀ l : List Char,
    (∀ x ∈ l :: ls, x ≠ [] ∧ ∀ c ∈ x, c ≠ '\n') →
    splitNewlineRuns (intercalNL (l :: ls)) = l :: ls := by
  induction ls with
  | nil =>
      intro l h
      obtain ⟨hl, hnl⟩ := h l (by simp)
      unfold splitNewlineRuns
      have h0 := splitRunsGo_no_newline l hnl [] [] false hl
      simp only [List.append_nil] at h0
      rw [show intercalNL [l] = l from rfl, h0]
      simp [splitRunsGo]
  | cons l2 ls' ih =>
      intro l h
      obtain ⟨hl, hnl⟩ := h l (by simp)
      have h2 := h l2 (by simp)
      unfold splitNewlineRuns
      rw [intercalNL_two]
      rw [splitRunsGo_no_newline l hnl [] ('\n' :: intercalNL (l2 :: ls')) false hl]
      rw [splitRunsGo_newline]
      simp only [List.append_nil, List.reverse_reverse]
      congr 1
      obtain ⟨rest, hrest⟩ := intercalNL_head l2 ls'
      obtain ⟨c, t, hct⟩ : ∃ c t, l2 = c :: t := by
        cases hcase : l2 with
        | nil => exact absurd hcase h2.1
        | cons c t => exact ⟨c, t, rfl⟩
      have hc : c ≠ '\n' := h2.2 c (by simp [hct])
      rw [hrest, hct, List.cons_append, splitRunsGo_true_false _ _ _ hc, ← List.cons_append,
        ← hct, ← hrest]
      exact ih l2 (fun x hx => h x (List.mem_cons_of_mem _ hx))

theorem lowerEq_barcodePat_self (tail : List Char) :
    lowerEq barcodePat ("barcode=".data ++ tail) = some tail := rfl

theorem takeWhile_all_append {p : Char → Bool} {l1 l2 : List Char}
    (h : ∀ c ∈ l1, p c = true) :
    (l1 ++ l2).takeWhile p = l1 ++ l2.takeWhile p := by
  induction l1 with
  | nil => simp
  | cons c cs ih =>
      simp only [List.cons_append, List.takeWhile_cons, h c (by simp)]
      simp only [ih (fun a ha => h a (by simp [ha])), if_true]

theorem matchAt_at_pattern (code suffix : List Char) (hcode : code ≠ [])
    (hsf : ∀ c ∈ code, isJsSpace c = false)
    (hsfx : suffix = [] ∨ ∃ cs, suffix = ' ' :: cs) :
    matchAt ("barcode=".data ++ (code ++ suffix)) = some code := by
  unfold matchAt
  rw [lowerEq_barcodePat_self]
  have htake : takeNonSpace (code ++ suffix) = code := by
    unfold takeNonSpace
    rw [takeWhile_all_append (fun c hc => by simp [hsf c hc])]
    rcases hsfx with h | ⟨cs, h⟩ <;> subst h <;> simp [List.takeWhile_cons, isJsSpace]
  cases code with
  | nil => exact absurd rfl hcode
  | cons c t =>
      simp only [htake, List.isEmpty_cons]
      rfl

theorem barcodePat_cons : barcodePat = 'b' :: "arcode=".data := rfl

theorem findBarcodeToken_skip (pre : List Char) (rest : List Char)
    (h : ∀ c ∈ pre, c.toLower ≠ 'b') :
    findBarcodeToken (pre ++ rest) = findBarcodeToken rest := by
  induction pre with
  | nil => rfl
  | cons c pre' ih =>
      have hc : c.toLower ≠ 'b' := h c (by simp)
      rw [List.cons_append]
      rw [show findBarcodeToken (c :: (pre' ++ rest)) = findBarcodeToken (pre' ++ rest) by
        simp only [findBarcodeToken, matchAt, barcodePat_cons, lowerEq]
        simp [hc]]
      exact ih (fun a ha => h a (by simp [ha]))

theorem findBarcodeToken_render (pre code sfx : List Char)
    (hpre : ∀ c ∈ pre, c.toLower ≠ 'b')
    (hcode : code ≠ []) (hsf : ∀ c ∈ code, isJsSpace c = false)
    (hsfx : sfx = [] ∨ ∃ cs, sfx = ' ' :: cs) :
    findBarcodeToken (pre ++ ("barcode=".data ++ (code ++ sfx))) = some code := by
  rw [findBarcodeToken_skip pre _ hpre]
  have hm : matchAt ('b' :: ("arcode=".data ++ (code ++ sfx))) = some code :=
    matchAt_at_pattern code sfx hcode hsf hsfx
  rw [show ("barcode=".data ++ (code ++ sfx) : List Char)
      = 'b' :: ("arcode=".data ++ (code ++ sfx)) from rfl]
  simp only [findBarcodeToken, hm]

theorem render_kind_no_b (k : EventKind) : ∀ c ∈ (EventKind.render k).data, c.toLower ≠ 'b' := by
  cases k <;> decide

theorem renderEventLine_data (ts : String) (k : EventKind) (code : String) :
    (renderEventLine ts k code).data
      = ("[".data ++ ts.data ++ "] ".data ++ (EventKind.render k).data ++ " ".data)
          ++ ("barcode=".data ++ (code.data ++
            (match k with
             | .saved => " file=".data ++ code.data ++ ".mp4".data
             | _ => []))) := by
  cases k <;>
    simp [renderEventLine, String.data_append, List.append_assoc]

theorem barcodeData_cons : "barcode=".data = 'b' :: "arcode=".data := rfl

theorem spaceFree_data_ne_nil {code : String} (h : goodCode code) : code.data ≠ [] := by
  obtain ⟨h1, _⟩ := h
  cases code with
  | mk data =>
      cases data with
      | nil => exact absurd rfl h1
      | cons c cs => simp

theorem spaceFree_no_newline {code : String} (h : spaceFree code) :
    ∀ c ∈ code.data, c ≠ '\n' := by
  intro c hc hcon
  have := h c hc
  subst hcon
  simp [isJsSpace] at this

theorem renderEventLine_pre_no_b (ts : String) (k : EventKind) (h : goodTs ts) :
    ∀ c ∈ ("[".data ++ ts.data ++ "] ".data ++ (EventKind.render k).data ++ " ".data),
      c.toLower ≠ 'b' := by
  intro c hc
  simp only [List.mem_append] at hc
  rcases hc with ((((hc | hc) | hc) | hc) | hc)
  · simp only [List.mem_singleton] at hc
    subst hc
    decide
  · exact (h c hc).1
  · simp only [List.mem_cons, List.mem_singleton, List.not_mem_nil, or_false] at hc
    rcases hc with rfl | rfl <;> decide
  · exact render_kind_no_b k c hc
  · simp only [List.mem_singleton] at hc
    subst hc
    decide

theorem findBarcodeToken_renderEventLine (ts : String) (k : EventKind) (code : String)
    (hts : goodTs ts) (hcode : goodCode code) :
    findBarcodeToken (renderEventLine ts k code).data = some code.data := by
  rw [renderEventLine_data]
  cases k <;>
    exact findBarcodeToken_render _ _ _ (renderEventLine_pre_no_b ts _ hts)
      (spaceFree_data_ne_nil hcode) (fun c hc => hcode.2 c hc)
      (by first
        | exact Or.inl rfl
        | exact Or.inr ⟨"file=".data ++ code.data ++ ".mp4".data, rfl⟩)

theorem renderEventLine_data_ne_nil (ts : String) (k : EventKind) (code : String) :
    (renderEventLine ts k code).data ≠ [] := by
  rw [renderEventLine_data]
  rw [show "[".data = ['['] from rfl]
  simp

theorem renderEventLine_ne_empty (ts : String) (k : EventKind) (code : String) :
    renderEventLine ts k code ≠ "" := by
  intro hcon
  have := renderEventLine_data_ne_nil ts k code
  rw [hcon] at this
  exact this rfl

theorem renderEventLine_no_newline (ts : String) (k : EventKind) (code : String)
    (hts : goodTs ts) (hcode : goodCode code) :
    ∀ c ∈ (renderEventLine ts k code).data, c ≠ '\n' := by
  have hkind : ∀ x ∈ (EventKind.render k).data, x ≠ '\n' := by cases k <;> decide
  intro c hc
  rw [renderEventLine_data] at hc
  cases k <;>
    · simp only [List.mem_append, List.mem_singleton, List.mem_cons, List.not_mem_nil,
        or_false] at hc
      rcases hc with hc | hc
      · rcases hc with (((hc | hc) | hc) | hc) | hc
        · subst hc; decide
        · exact (hts c hc).2
        · rcases hc with rfl | rfl <;> decide
        · exact hkind c hc
        · subst hc; decide
      · rcases hc with hc | hc
        · rcases hc with rfl | rfl | rfl | rfl | rfl | rfl | rfl | rfl <;> decide
        · first
          | exact spaceFree_no_newline hcode.2 c hc
          | (rcases hc with hc | hc
             · exact spaceFree_no_newline hcode.2 c hc
             · rcases hc with (hc | hc) | hc
               · rcases hc with rfl | rfl | rfl | rfl | rfl | rfl <;> decide
               · exact spaceFree_no_newline hcode.2 c hc
               · rcases hc with rfl | rfl | rfl | rfl <;> decide)

theorem mem_of_getLast?_eq {l : List Char} {c : Char} (h : l.getLast? = some c) : c ∈ l := by
  have hx : c ∈ l.getLast? := Option.mem_def.mpr h
  obtain ⟨hne, heq⟩ := List.mem_getLast?_eq_getLast hx
  rw [heq]
  exact List.getLast_mem hne

theorem renderEventLine_head (ts : String) (k : EventKind) (code : String) :
    (renderEventLine ts k code).data.head? = some '[' := by
  rw [renderEventLine_data]
  rfl

theorem renderEventLine_getLast_nonspace (ts : String) (k : EventKind) (code : String)
    (hcode : goodCode code) :
    ∀ c, (renderEventLine ts k code).data.getLast? = some c → isJsSpace c = false := by
  intro c hc
  have hcd : code.data ≠ [] := spaceFree_data_ne_nil hcode
  rw [renderEventLine_data] at hc
  cases k
  case saved =>
    rw [List.getLast?_append_of_ne_nil _ (by simp [barcodeData_cons])] at hc
    rw [List.getLast?_append_of_ne_nil _ (by simp [hcd])] at hc
    rw [List.getLast?_append_of_ne_nil _ (by
      simp [show " file=".data = ' ' :: "file=".data from rfl])] at hc
    rw [List.getLast?_append_of_ne_nil _ (by
      simp [show ".mp4".data = ['.', 'm', 'p', '4'] from rfl])] at hc
    rw [show (".mp4".data : List Char).getLast? = some '4' from rfl] at hc
    cases hc
    decide
  all_goals
    · rw [List.getLast?_append_of_ne_nil _ (by simp [barcodeData_cons])] at hc
      rw [List.getLast?_append_of_ne_nil _ (by simp [hcd])] at hc
      simp only [List.append_nil] at hc
      exact hcode.2 c (mem_of_getLast?_eq hc)

theorem renderEventLine_trimList (ts : String) (k : EventKind) (code : String)
    (hcode : goodCode code) :
    trimList (renderEventLine ts k code).data = (renderEventLine ts k code).data := by
  apply trimList_eq_self_of_ends
  · intro c hc
    rw [renderEventLine_head] at hc
    have : c = '[' := by
      cases hc
      rfl
    subst this
    decide
  · exact renderEventLine_getLast_nonspace ts k code hcode

theorem list_map_id {α : Type} (l : List α) (f : α → α) (h : ∀ x ∈ l, f x = x) :
    l.map f = l := by
  induction l with
  | nil => rfl
  | cons x xs ih =>
      rw [List.map_cons, h x (by simp), ih (fun a ha => h a (by simp [ha]))]

theorem filterMap_eq_map_of_some {α β : Type} (l : List α) (f : α → Option β) (g : α → β)
    (h : ∀ a ∈ l, f a = some (g a)) : l.filterMap f = l.map g := by
  induction l with
  | nil => rfl
  | cons x xs ih =>
      rw [List.filterMap_cons, h x (by simp), List.map_cons,
        ih (fun a ha => h a (by simp [ha]))]

theorem mem_dedupFirst (l : List String) (a : String) : a ∈ dedupFirst l ↔ a ∈ l := by
  induction l using dedupFirst.induct with
  | case1 => simp [dedupFirst]
  | case2 x xs ih =>
      rw [dedupFirst]
      simp only [List.mem_cons, ih, List.mem_filter]
      constructor
      · rintro (rfl | ⟨h, _⟩)
        · exact Or.inl rfl
        · exact Or.inr h
      · rintro (rfl | h)
        · exact Or.inl rfl
        · by_cases hax : a = x
          · exact Or.inl hax
          · exact Or.inr ⟨h, by simp [hax]⟩

theorem nodup_dedupFirst (l : List String) : (dedupFirst l).Nodup := by
  induction l using dedupFirst.induct with
  | case1 => simp [dedupFirst]
  | case2 x xs ih =>
      rw [dedupFirst]
      refine List.Nodup.cons ?_ ih
      rw [mem_dedupFirst]
      simp

theorem length_dedupFirst (l : List String) : (dedupFirst l).length = l.toFinset.card := by
  rw [List.card_toFinset]
  exact ((List.perm_ext_iff_of_nodup (nodup_dedupFirst l) (l.nodup_dedup)).mpr
    (fun a => by rw [mem_dedupFirst, List.mem_dedup])).length_eq

/-- C7: appending any sequence of well-formed event lines (rendered exactly as
the application does, with valid timestamps and whitespace-free non-empty
barcodes) to an initially empty log — each `appendTextLog` joining with a
newline separator unless the content was empty — and then reloading produces a
used-barcode set whose size is the number of distinct barcodes among those
lines. -/
theorem c7_roundtrip_distinct_count (entries : List (String × EventKind × String))
    (hts : ∀ e ∈ entries, goodTs e.1)
    (hcode : ∀ e ∈ entries, goodCode e.2.2) :
    (parseUsedBarcodes
        (joinLog (entries.map (fun e => renderEventLine e.1 e.2.1 e.2.2)))).length
      = (entries.map (fun e => e.2.2)).toFinset.card := by
  cases entries with
  | nil => rfl
  | cons e0 es =>
      have hparse : parseUsedBarcodes
          (joinLog ((e0 :: es).map (fun e => renderEventLine e.1 e.2.1 e.2.2)))
          = dedupFirst ((e0 :: es).map (fun e => e.2.2)) := by
        rw [parseUsedBarcodes_eq_foldl]
        rw [joinLog_data _ (by
            intro x hx
            simp only [List.mem_map] at hx
            obtain ⟨e, _, rfl⟩ := hx
            exact renderEventLine_ne_empty _ _ _)
          (by simp)]
        rw [List.map_map, List.map_cons]
        rw [splitNewlineRuns_intercalNL _ _ (by
          intro x hx
          simp only [List.mem_cons, List.mem_map] at hx
          rcases hx with rfl | ⟨e, he, rfl⟩
          · exact ⟨renderEventLine_data_ne_nil _ _ _,
              renderEventLine_no_newline _ _ _ (hts e0 (by simp)) (hcode e0 (by simp))⟩
          · exact ⟨renderEventLine_data_ne_nil _ _ _,
              renderEventLine_no_newline _ _ _ (hts e (by simp [he]))
                (hcode e (by simp [he]))⟩)]
        rw [list_map_id _ trimList (by
          intro x hx
          simp only [List.mem_cons, List.mem_map] at hx
          rcases hx with rfl | ⟨e, he, rfl⟩
          · exact renderEventLine_trimList _ _ _ (hcode e0 (by simp))
          · exact renderEventLine_trimList _ _ _ (hcode e (by simp [he])))]
        rw [List.filter_eq_self.mpr (by
          intro a ha
          simp only [List.mem_cons, List.mem_map] at ha
          rcases ha with rfl | ⟨e, he, rfl⟩
          · simp [renderEventLine_data_ne_nil]
          · simp [renderEventLine_data_ne_nil])]
        rw [foldl_step_filterMap]
        rw [← List.map_cons, List.filterMap_map]
        rw [filterMap_eq_map_of_some (e0 :: es) _ (fun e => e.2.2) (by
          intro e he
          have h1 := findBarcodeToken_renderEventLine e.1 e.2.1 e.2.2
            (hts e he) (hcode e he)
          simp only [Function.comp_apply, h1, Option.map_some']
          rw [trimList_all_false (hcode e he).2])]
        rw [foldl_insert_eq_dedupFirst]
        rw [List.filter_eq_self.mpr (by intro a _; simp)]
        simp
      rw [hparse, length_dedupFirst]

/-- C7 witness: two concrete well-formed lines with distinct codes, one
repeated code. -/
theorem c7_witness :
    (parseUsedBarcodes
        (joinLog ([("2025-01-01T00:00:00.000Z", EventKind.reserved, "X1"),
                   ("2025-01-01T00:00:01.000Z", EventKind.start, "X1"),
                   ("2025-01-01T00:00:02.000Z", EventKind.reserved, "Y2")].map
          (fun e => renderEventLine e.1 e.2.1 e.2.2)))).length
      = ([("2025-01-01T00:00:00.000Z", EventKind.reserved, "X1"),
          ("2025-01-01T00:00:01.000Z", EventKind.start, "X1"),
          ("2025-01-01T00:00:02.000Z", EventKind.reserved, "Y2")].map
          (fun e => e.2.2)).toFinset.card :=
  c7_roundtrip_distinct_count _ (by decide) (by decide)

end ShipSight
